import Mathlib

/-!
# valms/stress-test: the benchmark engine of `service/benchmark.go`

A shallow embedding of the data model (`Result`, `Metrics`, `Benchmark`), of the
constructor `NewBenchmark`, of the aggregation loop of `Benchmark.Run`, of the
worker loop as an interleaving step function, and of the summary computed by
`Benchmark.PrintReport`.

Conventions.
* A Go `map[K]V` is a finite map with unique keys and no iteration order
  (`Finmap`); reading a missing key gives the zero value and does not insert.
* `int` and `int64` counters are integers. Every counter of a run is bounded by
  the number of dispatched calls, itself bounded by `requests + threads`, and
  `requests` is the capacity of a channel that `NewBenchmark` did allocate, so
  the 64-bit range is never left and no wrap-around is modelled.
* `make(chan Result, n)` does not return for every `n`: the Go runtime panics
  ("makechan: size out of range") or runs out of memory above a capacity that
  depends on the platform. That capacity is the parameter `chanLimit` of
  `NewBenchmark`: the general theorems hold for every value of it, and the
  concrete runs take `chanLimit64`.
* An `error` value is observed only through its message: `Option String`.
* `time.Duration` values are integers (nanoseconds); they take no part in any
  decision of the code.
-/

namespace StressTest

/-! ## Go maps -/

/-- Go `map[K]int64`. -/
abbrev CountMap (K : Type) := Finmap (fun _ : K => Int)

namespace CountMap

variable {K : Type} [DecidableEq K]

/-- Indexing `m[k]`: the zero value when the key is absent. -/
def get (m : CountMap K) (k : K) : Int := (m.lookup k).getD 0

/-- Statement `m[k]++`. -/
def incr (m : CountMap K) (k : K) : CountMap K := m.insert k (m.get k + 1)

/-- Builtin `len(m)`. -/
def len (m : CountMap K) : Nat := m.keys.card

/-- Sum of all the counts stored in the map. -/
def total (m : CountMap K) : Int := ∑ k in m.keys, m.get k

end CountMap

/-- Go `map[int]map[string]int64`. A key bound to a nil inner map is
represented as an absent key: the code treats both alike (`== nil`, `len`). -/
abbrev ErrMap := Finmap (fun _ : Int => CountMap String)

/-- The pair of statements
`if e[code] == nil { e[code] = make(map[string]int64) }; e[code][msg]++`. -/
def ErrMap.record (e : ErrMap) (code : Int) (msg : String) : ErrMap :=
  let e1 : ErrMap := match e.lookup code with
    | none => e.insert code ∅
    | some _ => e
  e1.insert code (((e1.lookup code).getD ∅).incr msg)

/-- Double indexing `e[code][msg]`, zero when either key is absent. -/
def ErrMap.get (e : ErrMap) (code : Int) (msg : String) : Int :=
  ((e.lookup code).getD ∅).get msg

/-! ## Data model -/

/-- Go `type Result struct`. -/
structure Result where
  StatusCode : Int
  Duration : Int
  Error : Option String
deriving DecidableEq

/-- Go `type Metrics struct` (the lock `mu` carries no data). -/
structure Metrics where
  totalRequests : Int
  statusCodes : CountMap Int
  errorsByCode : ErrMap
  errors : Int
  totalTime : Int
deriving DecidableEq

/-- The `Metrics` literal of `NewBenchmark`: two empty maps, every other field zero. -/
def Metrics.fresh : Metrics :=
  { totalRequests := 0, statusCodes := ∅, errorsByCode := ∅, errors := 0, totalTime := 0 }

/-! ## The aggregation loop of `Benchmark.Run` (lines 134-154) -/

/-- One iteration of `for result := range b.results`, lines 135-153. The inner
`if result.Error != nil` of the `else` branch is kept as written. -/
def Run_loopBody (m : Metrics) (result : Result) : Metrics :=
  match result.Error with
  | some errorMsg =>
    { m with errors := m.errors + 1
             errorsByCode := m.errorsByCode.record 0 errorMsg }
  | none =>
    let m1 : Metrics := { m with statusCodes := m.statusCodes.incr result.StatusCode }
    match result.Error with
    | some msg => { m1 with errorsByCode := m1.errorsByCode.record result.StatusCode msg }
    | none => m1

/-- The whole loop over the Results received, in the order received. -/
def Run_loop (m : Metrics) (results : List Result) : Metrics :=
  results.foldl Run_loopBody m

/-! ## `NewBenchmark` (lines 39-74) -/

/-- The buffered channel `results chan Result`: capacity, queued values, closed flag. -/
structure Chan where
  cap : Int
  buf : List Result
  closed : Bool
deriving DecidableEq

/-- Go `type Benchmark struct`. The HTTP client is configuration of the
transport only, and the wait group is read off the workers of a run. -/
structure Benchmark where
  url : String
  requests : Int
  threads : Int
  results : Chan
  metrics : Metrics
deriving DecidableEq

/-- How a call of `NewBenchmark` ends. -/
inductive Returned where
  /-- The call returns `(nil, errors.New(msg))`. -/
  | err (msg : String)
  /-- The call returns `(b, nil)`. -/
  | ok (b : Benchmark)
  /-- The call returns nothing: `make(chan Result, requests)` of line 60 panics
  ("makechan: size out of range") or cannot get the memory. -/
  | panics
deriving DecidableEq

/-- The largest capacity `make(chan Result, n)` accepts where the heap has 48
address bits (linux/amd64): a `Result` takes 32 bytes, the channel header 96,
and the runtime refuses more than `2^48` bytes, so `n <= (2^48 - 96) / 32`. Used
for concrete runs only. -/
def chanLimit64 : Int := 8796093022205

/-- Go `NewBenchmark`: the three checks in source order, the clamp of lines
50-54, then the struct literal, whose `make(chan Result, requests)` returns only
for `requests <= chanLimit`, the capacity limit of the runtime the program runs
on. The notice printed by the clamp is output only. -/
def NewBenchmark (chanLimit : Int) (url : String) (requests threads : Int) : Returned :=
  if url = "" then
    .err "a URL é obrigatória"
  else if requests ≤ 0 then
    .err "o número de requisições deve ser maior que zero"
  else if threads ≤ 0 then
    .err "o número de threads deve ser maior que zero"
  else
    let threads1 := if threads > requests then requests else threads
    if requests ≤ chanLimit then
      .ok { url := url
            requests := requests
            threads := threads1
            results := { cap := requests, buf := [], closed := false }
            metrics := Metrics.fresh }
    else
      .panics

/-! ## The worker pool of `Benchmark.Run` as an interleaving machine

Go's `sync/atomic` operations are sequentially consistent and the channel and
the mutex serialise every other shared access, so a run is an interleaving of
the atomic steps below. -/

/-- Where a worker goroutine stands in `Benchmark.worker`. -/
inductive PC where
  /-- At the `select` of line 80. -/
  | loopHead
  /-- Past the quota check of line 84, before the `AddInt64` of line 88. -/
  | passed
  /-- Holding a Result, at the channel send of line 98 or 108. -/
  | sending (result : Result)
  /-- After `return` (and the deferred `wg.Done`). -/
  | returned
deriving DecidableEq

/-- The shared state of a run. `cancelled` is the state of `ctx`: `cancel` is
called only by the `defer` of line 115, when `Run` returns. -/
structure RunState where
  metrics : Metrics
  results : Chan
  workers : List PC
  cancelled : Bool
deriving DecidableEq

/-- What `b.client.Get(b.url)` hands back: `err != nil`, or a response with its status. -/
inductive Response where
  | failure (err : String)
  | answered (status : Int)
deriving DecidableEq

/-- One atomic step of a run. -/
inductive Action where
  /-- Worker `i`: the `select` and the load-and-compare of lines 80-86. -/
  | check (i : Nat)
  /-- Worker `i`: `AddInt64` of line 88, then the GET and lines 92-107, the
  call taking `duration` and answering `resp` (a transport error or a status). -/
  | dispatch (i : Nat) (duration : Int) (resp : Response)
  /-- Worker `i`: the send of line 98 or 108. -/
  | send (i : Nat)
  /-- The closer goroutine of lines 129-132, once `wg.Wait` returns. -/
  | close
  /-- One iteration of the loop of lines 134-154. -/
  | receive
  /-- Lines 156-157 and the deferred `cancel`, once the loop has ended. -/
  | finish (elapsed : Int)
deriving DecidableEq

/-- State at line 128: `b.threads` workers started, nothing dispatched. -/
def Run_init (b : Benchmark) : RunState :=
  { metrics := b.metrics
    results := b.results
    workers := List.replicate b.threads.toNat PC.loopHead
    cancelled := false }

/-- The step function of a run: `none` when the action is not enabled (wrong
program point, send on a full channel, receive on an empty one). -/
def step (b : Benchmark) (s : RunState) : Action → Option RunState
  | .check i =>
    match s.workers[i]? with
    | some .loopHead =>
      if s.cancelled then
        some { s with workers := s.workers.set i .returned }
      else if s.metrics.totalRequests ≥ b.requests then
        some { s with workers := s.workers.set i .returned }
      else
        some { s with workers := s.workers.set i .passed }
    | _ => none
  | .dispatch i duration resp =>
    match s.workers[i]? with
    | some .passed =>
      let result : Result :=
        match resp with
        | .failure err => { StatusCode := 0, Duration := duration, Error := some err }
        | .answered status => { StatusCode := status, Duration := duration, Error := none }
      some { s with metrics := { s.metrics with totalRequests := s.metrics.totalRequests + 1 }
                    workers := s.workers.set i (.sending result) }
    | _ => none
  | .send i =>
    match s.workers[i]? with
    | some (.sending result) =>
      if s.results.closed then none
      else if (s.results.buf.length : Int) < s.results.cap then
        some { s with results := { s.results with buf := s.results.buf ++ [result] }
                      workers := s.workers.set i .loopHead }
      else none
    | _ => none
  | .close =>
    if s.workers.all (fun pc => decide (pc = .returned)) && !s.results.closed then
      some { s with results := { s.results with closed := true } }
    else none
  | .receive =>
    match s.results.buf with
    | result :: rest =>
      some { s with metrics := Run_loopBody s.metrics result
                    results := { s.results with buf := rest } }
    | [] => none
  | .finish elapsed =>
    if s.results.closed && s.results.buf.isEmpty && !s.cancelled then
      some { s with metrics := { s.metrics with totalTime := elapsed }
                    cancelled := true }
    else none

/-- Run a schedule from a state. -/
def exec (b : Benchmark) (s : RunState) : List Action → Option RunState
  | [] => some s
  | a :: rest => (step b s a).bind (fun s1 => exec b s1 rest)

/-- The states some schedule of `Run` reaches. -/
def Reachable (b : Benchmark) (s : RunState) : Prop :=
  ∃ schedule : List Action, exec b (Run_init b) schedule = some s

/-- `Run` has returned: the loop saw the closed, drained channel and line 157 ran. -/
def RunState.completed (s : RunState) : Bool := s.cancelled

/-! ## The summary of `Benchmark.PrintReport` (lines 189-205) -/

/-- A `float64` value: the two kinds of special value and the finite ones,
which are kept as exact rationals (rounding to the nearest double and the sign
of zero are not modelled). -/
inductive F64 where
  | nan
  | inf (negative : Bool)
  | fin (q : ℚ)
deriving DecidableEq

/-- Conversion `float64(n)` of an integer. -/
def F64.ofInt (n : Int) : F64 := .fin n

/-- IEEE 754 division as Go performs it: no panic, `0/0` is NaN, `x/0` is an infinity. -/
def F64.div : F64 → F64 → F64
  | .nan, _ => .nan
  | _, .nan => .nan
  | .inf _, .inf _ => .nan
  | .inf s, .fin b => .inf (xor s (decide (b < 0)))
  | .fin _, .inf _ => .fin 0
  | .fin a, .fin b =>
    if b = 0 then (if a = 0 then .nan else .inf (decide (a < 0))) else .fin (a / b)

/-- IEEE 754 multiplication. -/
def F64.mul : F64 → F64 → F64
  | .nan, _ => .nan
  | _, .nan => .nan
  | .inf s, .inf t => .inf (xor s t)
  | .inf s, .fin b => if b = 0 then .nan else .inf (xor s (decide (b < 0)))
  | .fin a, .inf t => if a = 0 then .nan else .inf (xor (decide (a < 0)) t)
  | .fin a, .fin b => .fin (a * b)

/-- Comparison `x < y`: false as soon as one side is NaN. -/
def F64.lt : F64 → F64 → Bool
  | .nan, _ => false
  | _, .nan => false
  | .inf s, .inf t => s && !t
  | .inf s, .fin _ => s
  | .fin _, .inf t => !t
  | .fin a, .fin b => decide (a < b)

/-- Line 193: `float64(statusCodes[200]) / float64(totalRequests) * 100`. -/
def successRate (m : Metrics) : F64 :=
  F64.mul (F64.div (F64.ofInt (m.statusCodes.get 200)) (F64.ofInt m.totalRequests)) (F64.ofInt 100)

/-- What `PrintReport` prints from line 182 on, field by field. -/
structure Report where
  /-- The messages of the section of lines 182-187, when it is printed. -/
  networkErrors : Option (CountMap String)
  /-- The count on the line "Requisições bem-sucedidas (2xx)". -/
  successes : Int
  /-- The count on the line "Total de falhas". -/
  failures : Int
  /-- The value on the line "Taxa de sucesso". -/
  rate : F64
  /-- The heading "Recomendações" is printed. -/
  recommendations : Bool
  /-- The two lines on connectivity and timeout are printed. -/
  hintConnectivity : Bool
  /-- The line "Analise os status HTTP não-200 retornados" is printed. -/
  hintStatuses : Bool
deriving DecidableEq

/-- Go `PrintReport`, lines 182-205. -/
def PrintReport (b : Benchmark) : Report :=
  let m := b.metrics
  let rate := successRate m
  let low := F64.lt rate (F64.ofInt 95)
  { networkErrors :=
      match m.errorsByCode.lookup 0 with
      | some errMap => if errMap.len > 0 then some errMap else none
      | none => none
    successes := m.statusCodes.get 200
    failures := m.errors
    rate := rate
    recommendations := low
    hintConnectivity := low && decide (m.errors > 0)
    hintStatuses := low && decide (m.statusCodes.len > 1) }

/-! ## Invariants of a run -/

/-- The worker is past the quota check and has not yet added to the counter. -/
def PC.isPassed : PC → Bool
  | .passed => true
  | _ => false

/-- The worker holds a Result it has not yet sent. -/
def PC.isSending : PC → Bool
  | .sending _ => true
  | _ => false

/-- The quota invariant: the counter plus the workers past the check stays
within `requests - 1 + threads`. -/
def QuotaInv (b : Benchmark) (s : RunState) : Prop :=
  (s.workers.length : Int) = b.threads ∧
  s.metrics.totalRequests + (s.workers.countP PC.isPassed : Int) ≤ b.requests - 1 + b.threads

/-- The accounting invariant of a run: every dispatched call is in exactly one
place (tallied, queued in the channel, or held by its worker), the tallies are
not negative, a worker that returned saw the quota reached, and the channel is
closed only after all workers returned. -/
structure AcctInv (b : Benchmark) (s : RunState) : Prop where
  tally : s.metrics.statusCodes.total + s.metrics.errors + (s.results.buf.length : Int)
      + (s.workers.countP PC.isSending : Int) = s.metrics.totalRequests
  codes_nonneg : ∀ k, 0 ≤ s.metrics.statusCodes.get k
  errors_nonneg : 0 ≤ s.metrics.errors
  returned_quota : ∀ pc ∈ s.workers, pc = PC.returned → b.requests ≤ s.metrics.totalRequests
  closed_returned : s.results.closed = true → ∀ pc ∈ s.workers, pc = PC.returned
  cancelled_closed : s.cancelled = true → s.results.closed = true
  workers_ne : s.workers ≠ []

/-- The Benchmark as `PrintReport` finds it when the run stands in state `s`:
`metrics` and `results` are shared with the run. -/
def Benchmark.afterRun (b : Benchmark) (s : RunState) : Benchmark :=
  { b with metrics := s.metrics, results := s.results }

/-! ## Concrete runs -/

/-- The Benchmark of scenario D as `NewBenchmark` returns it. -/
def scenarioD_bench : Benchmark :=
  { url := "http://localhost:8080", requests := 10, threads := 2,
    results := { cap := 10, buf := [], closed := false }, metrics := Metrics.fresh }

/-- The schedule of scenario D: ten requests on two workers, every call answered 500. -/
def scenarioD_schedule : List Action :=
  (List.replicate 5
    [Action.check 0, Action.check 1,
     Action.dispatch 0 7 (Response.answered 500), Action.dispatch 1 9 (Response.answered 500),
     Action.send 0, Action.send 1, Action.receive, Action.receive]).flatten
  ++ [Action.check 0, Action.check 1, Action.close, Action.finish 80]

/-- The Results of scenario D in the order the loop of `Run` receives them. -/
def scenarioD_results : List Result :=
  (List.replicate 5
    [({ StatusCode := 500, Duration := 7, Error := none } : Result),
     { StatusCode := 500, Duration := 9, Error := none }]).flatten

/-- The Metrics of scenario D once `Run` has returned. -/
def scenarioD_metrics : Metrics :=
  { totalRequests := 10, statusCodes := (∅ : CountMap Int).insert 500 10,
    errorsByCode := ∅, errors := 0, totalTime := 80 }

/-- The Benchmark of scenario D when `PrintReport` is called on it. -/
def scenarioD_done : Benchmark :=
  { scenarioD_bench with
    metrics := scenarioD_metrics, results := { cap := 10, buf := [], closed := true } }

/-- The Benchmark `NewBenchmark` returns for four requests and two threads. -/
def mixed_bench : Benchmark :=
  { url := "http://localhost:8080", requests := 4, threads := 2,
    results := { cap := 4, buf := [], closed := false }, metrics := Metrics.fresh }

/-- A schedule of four requests on two workers: three answered 200, one refused. -/
def mixed_schedule : List Action :=
  [Action.check 0, Action.check 1,
   Action.dispatch 0 3 (Response.answered 200), Action.dispatch 1 4 (Response.failure "refused"),
   Action.send 1, Action.send 0, Action.receive,
   Action.check 0, Action.dispatch 0 2 (Response.answered 200), Action.check 1,
   Action.dispatch 1 5 (Response.answered 200), Action.send 0, Action.send 1,
   Action.check 1, Action.receive, Action.check 0, Action.close, Action.receive, Action.receive,
   Action.finish 14]

/-- The state `mixed_schedule` ends in. -/
def mixed_final : RunState :=
  { metrics :=
      { totalRequests := 4, statusCodes := (∅ : CountMap Int).insert 200 3,
        errorsByCode := (∅ : ErrMap).insert 0 ((∅ : CountMap String).insert "refused" 1),
        errors := 1, totalTime := 14 },
    results := { cap := 4, buf := [], closed := true },
    workers := [PC.returned, PC.returned], cancelled := true }

/-- The Benchmark `NewBenchmark` returns for two requests and two threads. -/
def overshoot_bench : Benchmark :=
  { url := "http://localhost:8080", requests := 2, threads := 2,
    results := { cap := 2, buf := [], closed := false }, metrics := Metrics.fresh }

/-- A schedule in which both workers pass the quota check of line 84 while the
counter is 1, and both then run the `AddInt64` of line 88. -/
def overshoot_schedule : List Action :=
  [Action.check 0, Action.dispatch 0 1 (Response.answered 200), Action.send 0,
   Action.check 0, Action.check 1,
   Action.dispatch 0 1 (Response.answered 200), Action.dispatch 1 1 (Response.answered 200),
   Action.send 0, Action.receive, Action.send 1,
   Action.check 0, Action.check 1, Action.close, Action.receive, Action.receive,
   Action.finish 9]

/-- The state `overshoot_schedule` ends in. -/
def overshoot_final : RunState :=
  { metrics :=
      { totalRequests := 3, statusCodes := (∅ : CountMap Int).insert 200 3,
        errorsByCode := ∅, errors := 0, totalTime := 9 },
    results := { cap := 2, buf := [], closed := true },
    workers := [PC.returned, PC.returned], cancelled := true }

/-! ## Lemmas on Go maps -/

namespace CountMap

variable {K : Type} [DecidableEq K]

theorem lookup_incr (m : CountMap K) (k k' : K) :
    (m.incr k).lookup k' = if k' = k then some (m.get k + 1) else m.lookup k' := by
  unfold incr
  by_cases h : k' = k
  · subst h
    simp [Finmap.lookup_insert]
  · simp [h, Finmap.lookup_insert_of_ne]

theorem get_incr (m : CountMap K) (k k' : K) :
    (m.incr k).get k' = if k' = k then m.get k + 1 else m.get k' := by
  unfold get
  rw [lookup_incr]
  by_cases h : k' = k
  · simp [h, get]
  · simp [h]

theorem keys_incr (m : CountMap K) (k : K) : (m.incr k).keys = insert k m.keys := by
  ext x
  simp [incr, Finmap.mem_keys, Finmap.mem_insert]

theorem get_of_not_mem (m : CountMap K) (k : K) (h : k ∉ m.keys) : m.get k = 0 := by
  have h1 : m.lookup k = none := Finmap.lookup_eq_none.mpr (fun hk => h (Finmap.mem_keys.mpr hk))
  simp [get, h1]

theorem total_incr (m : CountMap K) (k : K) : (m.incr k).total = m.total + 1 := by
  unfold total
  rw [keys_incr]
  by_cases h : k ∈ m.keys
  · rw [Finset.insert_eq_of_mem h, ← Finset.add_sum_erase _ _ h, ← Finset.add_sum_erase _ _ h]
    have h1 : ∑ x in m.keys.erase k, (m.incr k).get x = ∑ x in m.keys.erase k, m.get x := by
      apply Finset.sum_congr rfl
      intro x hx
      rw [get_incr, if_neg (Finset.ne_of_mem_erase hx)]
    rw [h1, get_incr, if_pos rfl]
    ring
  · rw [Finset.sum_insert h]
    have h1 : ∑ x in m.keys, (m.incr k).get x = ∑ x in m.keys, m.get x := by
      apply Finset.sum_congr rfl
      intro x hx
      have hne : x ≠ k := fun e => h (e ▸ hx)
      rw [get_incr, if_neg hne]
    rw [h1, get_incr, if_pos rfl, get_of_not_mem m k h]
    ring

theorem total_empty : (∅ : CountMap K).total = 0 := by
  simp [total, Finmap.keys_empty]

end CountMap

theorem ErrMap.lookup_record (e : ErrMap) (code code' : Int) (msg : String) :
    (e.record code msg).lookup code' =
      if code' = code then some (((e.lookup code).getD ∅).incr msg) else e.lookup code' := by
  unfold ErrMap.record
  cases h : e.lookup code with
  | none =>
    by_cases hc : code' = code
    · subst hc
      simp [Finmap.lookup_insert]
    · simp [hc, Finmap.lookup_insert_of_ne]
  | some inner =>
    by_cases hc : code' = code
    · subst hc
      simp [Finmap.lookup_insert, h]
    · simp [hc, Finmap.lookup_insert_of_ne]

theorem ErrMap.get_record (e : ErrMap) (code code' : Int) (msg msg' : String) :
    (e.record code msg).get code' msg' =
      if code' = code ∧ msg' = msg then e.get code msg + 1 else e.get code' msg' := by
  unfold ErrMap.get
  rw [ErrMap.lookup_record]
  by_cases hc : code' = code
  · subst hc
    by_cases hm : msg' = msg
    · subst hm
      simp [CountMap.get_incr]
    · simp [hm, CountMap.get_incr]
  · simp [hc]

theorem CountMap.incr_comm {K : Type} [DecidableEq K] (m : CountMap K) (a b : K) :
    (m.incr a).incr b = (m.incr b).incr a := by
  apply Finmap.ext_lookup
  intro x
  simp only [CountMap.lookup_incr, CountMap.get_incr]
  by_cases hab : a = b
  · subst hab
    rfl
  · have hba : ¬ b = a := fun h => hab h.symm
    by_cases hxa : x = a
    · subst hxa
      simp [hab, hba]
    · by_cases hxb : x = b
      · subst hxb
        simp [hab, hba]
      · simp [hxa, hxb]

theorem ErrMap.record_comm (e : ErrMap) (code : Int) (a b : String) :
    (e.record code a).record code b = (e.record code b).record code a := by
  apply Finmap.ext_lookup
  intro x
  simp only [ErrMap.lookup_record]
  by_cases hx : x = code
  · simp [hx, CountMap.incr_comm]
  · simp [hx]

/-! ## Lemmas on the aggregation loop -/

theorem Run_loopBody_error (m : Metrics) (r : Result) (msg : String) (h : r.Error = some msg) :
    Run_loopBody m r =
      { m with errors := m.errors + 1, errorsByCode := m.errorsByCode.record 0 msg } := by
  simp [Run_loopBody, h]

theorem Run_loopBody_status (m : Metrics) (r : Result) (h : r.Error = none) :
    Run_loopBody m r = { m with statusCodes := m.statusCodes.incr r.StatusCode } := by
  simp [Run_loopBody, h]

theorem Run_loopBody_totalRequests (m : Metrics) (r : Result) :
    (Run_loopBody m r).totalRequests = m.totalRequests := by
  cases h : r.Error with
  | none => rw [Run_loopBody_status m r h]
  | some msg => rw [Run_loopBody_error m r msg h]

theorem Run_loopBody_tally (m : Metrics) (r : Result) :
    (Run_loopBody m r).statusCodes.total + (Run_loopBody m r).errors =
      m.statusCodes.total + m.errors + 1 := by
  cases h : r.Error with
  | none =>
    rw [Run_loopBody_status m r h]
    simp only [CountMap.total_incr]
    ring
  | some msg =>
    rw [Run_loopBody_error m r msg h]
    simp only
    ring

theorem Run_loop_tally (results : List Result) (m : Metrics) :
    (Run_loop m results).statusCodes.total + (Run_loop m results).errors =
      m.statusCodes.total + m.errors + results.length := by
  induction results generalizing m with
  | nil => simp [Run_loop]
  | cons r rest ih =>
    have h := ih (Run_loopBody m r)
    simp only [Run_loop, List.foldl_cons] at h ⊢
    rw [h, Run_loopBody_tally, List.length_cons]
    push_cast
    ring

theorem Run_loopBody_comm (m : Metrics) (a b : Result) :
    Run_loopBody (Run_loopBody m a) b = Run_loopBody (Run_loopBody m b) a := by
  cases ha : a.Error with
  | none =>
    cases hb : b.Error with
    | none =>
      rw [Run_loopBody_status m a ha, Run_loopBody_status m b hb,
        Run_loopBody_status _ b hb, Run_loopBody_status _ a ha]
      simp only [CountMap.incr_comm m.statusCodes a.StatusCode b.StatusCode]
    | some mb =>
      rw [Run_loopBody_status m a ha, Run_loopBody_error m b mb hb,
        Run_loopBody_error _ b mb hb, Run_loopBody_status _ a ha]
  | some ma =>
    cases hb : b.Error with
    | none =>
      rw [Run_loopBody_error m a ma ha, Run_loopBody_status m b hb,
        Run_loopBody_status _ b hb, Run_loopBody_error _ a ma ha]
    | some mb =>
      rw [Run_loopBody_error m a ma ha, Run_loopBody_error m b mb hb,
        Run_loopBody_error _ b mb hb, Run_loopBody_error _ a ma ha]
      simp only [ErrMap.record_comm m.errorsByCode 0 ma mb]

theorem Run_loop_perm_eq (m : Metrics) (l1 l2 : List Result) (h : l1.Perm l2) :
    Run_loop m l1 = Run_loop m l2 :=
  h.foldl_eq' (fun x _ y _ z => Run_loopBody_comm z x y) m

/-! ## Result accounting -/

/-- C1: in the aggregation loop of `Run` a Result with an error adds one to
`errors` and to `errorsByCode[0][message]` and leaves `statusCodes` alone, a
Result without error adds one to `statusCodes[StatusCode]` (so one to the sum of
the counts) and leaves `errors` alone; hence, from the fresh Metrics of
`NewBenchmark`, the sum of the status counts plus `errors` is the number of
Results consumed. -/
theorem Run_loop_accounts_each_result (m : Metrics) (r : Result) (results : List Result) :
    (match r.Error with
      | some msg =>
        (Run_loopBody m r).errors = m.errors + 1 ∧
        (Run_loopBody m r).errorsByCode.get 0 msg = m.errorsByCode.get 0 msg + 1 ∧
        (Run_loopBody m r).statusCodes = m.statusCodes
      | none =>
        (Run_loopBody m r).statusCodes.get r.StatusCode = m.statusCodes.get r.StatusCode + 1 ∧
        (Run_loopBody m r).statusCodes.total = m.statusCodes.total + 1 ∧
        (Run_loopBody m r).errors = m.errors ∧
        (Run_loopBody m r).errorsByCode = m.errorsByCode) ∧
    (Run_loop Metrics.fresh results).statusCodes.total + (Run_loop Metrics.fresh results).errors
      = results.length := by
  constructor
  · cases h : r.Error with
    | none =>
      rw [Run_loopBody_status m r h]
      simp [CountMap.get_incr, CountMap.total_incr]
    | some msg =>
      rw [Run_loopBody_error m r msg h]
      simp [ErrMap.get_record]
  · rw [Run_loop_tally]
    simp [Metrics.fresh, CountMap.total_empty]

/-- C6: the aggregation loop of `Run` gives the same `statusCodes`, the same
`errorsByCode` and the same `errors` on every permutation of the Results, from
any initial Metrics. -/
theorem Run_loop_order_independent (m : Metrics) (l1 l2 : List Result) (h : l1.Perm l2) :
    (Run_loop m l1).statusCodes = (Run_loop m l2).statusCodes ∧
    (Run_loop m l1).errorsByCode = (Run_loop m l2).errorsByCode ∧
    (Run_loop m l1).errors = (Run_loop m l2).errors := by
  rw [Run_loop_perm_eq m l1 l2 h]
  exact ⟨rfl, rfl, rfl⟩

theorem Run_loop_order_independent_witness :
    (Run_loop Metrics.fresh [⟨200, 5, none⟩, ⟨0, 3, some "refused"⟩, ⟨500, 1, none⟩]).statusCodes
      = (Run_loop Metrics.fresh
          [⟨0, 3, some "refused"⟩, ⟨500, 1, none⟩, ⟨200, 5, none⟩]).statusCodes ∧
    (Run_loop Metrics.fresh [⟨200, 5, none⟩, ⟨0, 3, some "refused"⟩, ⟨500, 1, none⟩]).errorsByCode
      = (Run_loop Metrics.fresh
          [⟨0, 3, some "refused"⟩, ⟨500, 1, none⟩, ⟨200, 5, none⟩]).errorsByCode ∧
    (Run_loop Metrics.fresh [⟨200, 5, none⟩, ⟨0, 3, some "refused"⟩, ⟨500, 1, none⟩]).errors
      = (Run_loop Metrics.fresh [⟨0, 3, some "refused"⟩, ⟨500, 1, none⟩, ⟨200, 5, none⟩]).errors :=
  Run_loop_order_independent Metrics.fresh _ _ (by decide)

/-! ## Construction -/

/-- C4, as the code has it: `NewBenchmark` returns an error exactly when the URL
is empty or `requests <= 0` or `threads <= 0`, the error being that of the
first violated check in the order url, requests, threads; on every other input
it returns a Benchmark and a nil error when `make(chan Result, requests)`
returns (`requests <= chanLimit`), and panics in that `make` otherwise. -/
theorem NewBenchmark_error_iff (chanLimit : Int) (url : String) (requests threads : Int) :
    ((∃ msg, NewBenchmark chanLimit url requests threads = .err msg) ↔
      (url = "" ∨ requests ≤ 0 ∨ threads ≤ 0)) ∧
    ((∃ b, NewBenchmark chanLimit url requests threads = .ok b) ↔
      (¬ (url = "" ∨ requests ≤ 0 ∨ threads ≤ 0) ∧ requests ≤ chanLimit)) ∧
    (NewBenchmark chanLimit url requests threads = .panics ↔
      (¬ (url = "" ∨ requests ≤ 0 ∨ threads ≤ 0) ∧ chanLimit < requests)) ∧
    (url = "" → NewBenchmark chanLimit url requests threads = .err "a URL é obrigatória") ∧
    (url ≠ "" → requests ≤ 0 →
      NewBenchmark chanLimit url requests threads
        = .err "o número de requisições deve ser maior que zero") ∧
    (url ≠ "" → 0 < requests → threads ≤ 0 →
      NewBenchmark chanLimit url requests threads
        = .err "o número de threads deve ser maior que zero") := by
  unfold NewBenchmark
  by_cases hu : url = ""
  · simp [hu]
  · by_cases hr : requests ≤ 0
    · simp [hu, hr]
    · by_cases ht : threads ≤ 0
      · have hr1 : 0 < requests := not_le.mp hr
        simp [hu, hr, ht, hr1]
      · by_cases hl : requests ≤ chanLimit
        · have hl1 : ¬ chanLimit < requests := not_lt.mpr hl
          simp [hu, hr, ht, hl, hl1]
        · have hl1 : chanLimit < requests := not_le.mp hl
          simp [hu, hr, ht, hl, hl1]

/-- C4 fails on the code: with a non-empty URL, `requests = 2^62` and
`threads = 1` none of the three conditions holds, yet no Benchmark is
returned: `make(chan Result, 2^62)` panics. -/
theorem NewBenchmark_large_requests :
    NewBenchmark chanLimit64 "http://localhost:8080" 4611686018427387904 1 = Returned.panics ∧
    decide ("http://localhost:8080" = "" ∨ (4611686018427387904 : Int) ≤ 0 ∨ (1 : Int) ≤ 0)
      = false := by
  decide

/-- C5: on a valid input every Benchmark that `NewBenchmark` returns has
`threads = min threads requests` (so between 1 and `requests`), the `url` and
`requests` of the call, and a result channel of capacity `requests`; and it does
return one whenever `make(chan Result, requests)` returns. -/
theorem NewBenchmark_clamps_threads (chanLimit : Int) (url : String) (requests threads : Int)
    (hu : url ≠ "") (hr : 0 < requests) (ht : 0 < threads) :
    (requests ≤ chanLimit → ∃ b, NewBenchmark chanLimit url requests threads = .ok b) ∧
    ∀ b, NewBenchmark chanLimit url requests threads = .ok b →
      b.threads = min threads requests ∧ 1 ≤ b.threads ∧ b.threads ≤ requests ∧
      b.url = url ∧ b.requests = requests ∧ b.results.cap = requests := by
  have hr1 : ¬ requests ≤ 0 := not_le.mpr hr
  have ht1 : ¬ threads ≤ 0 := not_le.mpr ht
  unfold NewBenchmark
  simp only [hu, hr1, ht1, if_false]
  constructor
  · intro hl
    simp only [hl, if_true]
    exact ⟨_, rfl⟩
  · intro b hb
    by_cases hl : requests ≤ chanLimit
    · simp only [hl, if_true] at hb
      injection hb with hb
      subst hb
      simp only
      by_cases h : threads > requests
      · simp only [h, if_true]
        exact ⟨(min_eq_right (le_of_lt h)).symm, by omega, le_refl _, trivial, trivial, trivial⟩
      · simp only [h, if_false]
        exact ⟨(min_eq_left (not_lt.mp h)).symm, by omega, not_lt.mp h,
          trivial, trivial, trivial⟩
    · simp only [hl, if_false] at hb
      exact absurd hb (by simp)

theorem NewBenchmark_clamps_threads_witness :
    ∃ b, NewBenchmark chanLimit64 "http://localhost:8080" 5 20 = .ok b ∧
      b.threads = 5 ∧ 1 ≤ b.threads ∧ b.threads ≤ 5 ∧
      b.url = "http://localhost:8080" ∧ b.requests = 5 ∧ b.results.cap = 5 := by
  obtain ⟨hex, hall⟩ :=
    NewBenchmark_clamps_threads chanLimit64 "http://localhost:8080" 5 20
      (by decide) (by decide) (by decide)
  obtain ⟨b, hb⟩ := hex (by decide)
  obtain ⟨h2, h3⟩ := hall b hb
  exact ⟨b, hb, h2.trans (by decide), h3⟩

/-! ## The report -/

theorem Run_loop_errors (results : List Result) (m : Metrics) :
    (Run_loop m results).errors = m.errors + results.countP (fun r => r.Error.isSome) := by
  induction results generalizing m with
  | nil => simp [Run_loop]
  | cons r rest ih =>
    have h := ih (Run_loopBody m r)
    simp only [Run_loop, List.foldl_cons] at h ⊢
    rw [h]
    cases hr : r.Error with
    | none =>
      rw [Run_loopBody_status m r hr]
      simp [List.countP_cons, hr]
    | some msg =>
      rw [Run_loopBody_error m r msg hr]
      simp [List.countP_cons, hr]
      ring

theorem Run_loop_single_status (c : Int) (results : List Result)
    (hall : ∀ r ∈ results, r.Error = none ∧ r.StatusCode = c) (m : Metrics) :
    (Run_loop m results).statusCodes.keys
        = (if results = [] then m.statusCodes.keys else insert c m.statusCodes.keys) ∧
      (∀ k, k ≠ c → (Run_loop m results).statusCodes.get k = m.statusCodes.get k) ∧
      (Run_loop m results).errors = m.errors := by
  induction results generalizing m with
  | nil => simp [Run_loop]
  | cons r rest ih =>
    have hr := hall r (List.mem_cons_self r rest)
    have hrest : ∀ x ∈ rest, x.Error = none ∧ x.StatusCode = c :=
      fun x hx => hall x (List.mem_cons_of_mem r hx)
    have hb : Run_loopBody m r = { m with statusCodes := m.statusCodes.incr c } := by
      rw [Run_loopBody_status m r hr.1, hr.2]
    obtain ⟨h1, h2, h3⟩ := ih hrest (Run_loopBody m r)
    simp only [Run_loop, List.foldl_cons] at h1 h2 h3 ⊢
    rw [hb] at h1 h2 h3 ⊢
    simp only at h1 h2 h3
    refine ⟨?_, ?_, h3⟩
    · rw [h1, CountMap.keys_incr]
      by_cases hnil : rest = []
      · simp [hnil]
      · simp [hnil]
    · intro k hk
      rw [h2 k hk, CountMap.get_incr, if_neg hk]

theorem successRate_eq (m : Metrics) :
    successRate m =
      if m.totalRequests = 0 then
        (if m.statusCodes.get 200 = 0 then F64.nan
         else F64.inf (decide (m.statusCodes.get 200 < 0)))
      else F64.fin ((m.statusCodes.get 200 : ℚ) / (m.totalRequests : ℚ) * 100) := by
  have h100 : ¬ ((100 : ℚ) < 0) := by norm_num
  unfold successRate F64.ofInt
  by_cases ht : m.totalRequests = 0
  · by_cases hs : m.statusCodes.get 200 = 0
    · simp [F64.div, F64.mul, ht, hs]
    · simp [F64.div, F64.mul, ht, hs, h100]
  · have ht1 : (m.totalRequests : ℚ) ≠ 0 := by exact_mod_cast ht
    simp [F64.div, F64.mul, ht, ht1]

theorem scenarioD_run :
    NewBenchmark chanLimit64 "http://localhost:8080" 10 2 = .ok scenarioD_bench ∧
    exec scenarioD_bench (Run_init scenarioD_bench) scenarioD_schedule
      = some { metrics := scenarioD_metrics, results := { cap := 10, buf := [], closed := true },
               workers := [PC.returned, PC.returned], cancelled := true } := by
  decide

theorem scenarioD_report :
    (PrintReport scenarioD_done).rate = F64.fin 0 ∧
    (PrintReport scenarioD_done).recommendations = true ∧
    (PrintReport scenarioD_done).hintConnectivity = false ∧
    (PrintReport scenarioD_done).hintStatuses = false := by
  have hget : scenarioD_done.metrics.statusCodes.get 200 = 0 := by decide
  have htot : scenarioD_done.metrics.totalRequests = 10 := by decide
  have herr : scenarioD_done.metrics.errors = 0 := by decide
  have hlen : scenarioD_done.metrics.statusCodes.len = 1 := by decide
  have hrate : successRate scenarioD_done.metrics = F64.fin 0 := by
    rw [successRate_eq, htot, hget]
    simp
  have hlt : F64.lt (F64.fin 0) (F64.ofInt 95) = true := by
    simp [F64.lt, F64.ofInt]
  refine ⟨hrate, ?_, ?_, ?_⟩
  · show F64.lt (successRate scenarioD_done.metrics) (F64.ofInt 95) = true
    rw [hrate, hlt]
  · show (F64.lt (successRate scenarioD_done.metrics) (F64.ofInt 95)
      && decide (scenarioD_done.metrics.errors > 0)) = false
    rw [herr]
    simp
  · show (F64.lt (successRate scenarioD_done.metrics) (F64.ofInt 95)
      && decide (scenarioD_done.metrics.statusCodes.len > 1)) = false
    rw [hlen]
    simp

/-- C7, as the code has it: the figure on the line "Total de falhas" is
`metrics.errors`, which after the aggregation loop is the number of Results that
carried a transport error; a status other than 200 is not counted, and the run of
ten requests all answered 500 reports 0 failures. -/
theorem PrintReport_failures_eq_errors (b : Benchmark) (results : List Result)
    (dispatched : Int) :
    (PrintReport b).failures = b.metrics.errors ∧
    (PrintReport { b with metrics :=
        { Run_loop Metrics.fresh results with totalRequests := dispatched } }).failures
      = results.countP (fun r => r.Error.isSome) ∧
    (PrintReport scenarioD_done).failures = 0 := by
  refine ⟨rfl, ?_, by decide⟩
  show (Run_loop Metrics.fresh results).errors = _
  rw [Run_loop_errors]
  simp [Metrics.fresh]

/-- C7 fails on the code: after the run of ten requests all answered 500 the
summary prints 0 failures, while `totalRequests - statusCodes[200]` is 10. -/
theorem PrintReport_failures_scenarioD :
    (exec scenarioD_bench (Run_init scenarioD_bench) scenarioD_schedule).map
        (fun s => s.metrics) = some scenarioD_done.metrics ∧
    scenarioD_done.metrics.totalRequests - scenarioD_done.metrics.statusCodes.get 200 = 10 ∧
    (PrintReport scenarioD_done).failures = 0 := by
  decide

/-- C8, as the code has it: the success rate is `statusCodes[200] /
totalRequests * 100` when `totalRequests` is not zero; when it is zero nothing
guards the division, and the float64 result is NaN if `statusCodes[200]` is zero
and an infinity otherwise. -/
theorem PrintReport_rate_eq (b : Benchmark) :
    (PrintReport b).rate =
      if b.metrics.totalRequests = 0 then
        (if b.metrics.statusCodes.get 200 = 0 then F64.nan
         else F64.inf (decide (b.metrics.statusCodes.get 200 < 0)))
      else
        F64.fin ((b.metrics.statusCodes.get 200 : ℚ) / (b.metrics.totalRequests : ℚ) * 100) :=
  successRate_eq b.metrics

/-- C8 fails on the code: on a Benchmark fresh from `NewBenchmark`, whose `Run`
has dispatched nothing, the rate computed by `PrintReport` is NaN, not 0. -/
theorem PrintReport_rate_without_run :
    ∃ b, NewBenchmark chanLimit64 "http://localhost:8080" 1 1 = .ok b ∧
      b.metrics.totalRequests = 0 ∧
      (PrintReport b).rate = F64.nan ∧
      decide ((PrintReport b).rate = F64.fin 0) = false := by
  refine ⟨_, rfl, ?_, ?_, ?_⟩ <;> decide

/-- C10, as the code has it: when every call of a run returns the same status
other than 200 and no call fails, the rate is 0, so the heading of the
recommendations is printed, but `statusCodes` has a single key, so the hint on
the non-200 statuses (printed only for more than one distinct status) is not
printed, and neither is the hint on connectivity. -/
theorem PrintReport_single_status_run (b : Benchmark) (c : Int) (results : List Result)
    (hc : c ≠ 200) (hne : results ≠ [])
    (hall : ∀ r ∈ results, r.Error = none ∧ r.StatusCode = c)
    (hs : b.metrics.statusCodes = (Run_loop Metrics.fresh results).statusCodes)
    (he : b.metrics.errors = (Run_loop Metrics.fresh results).errors)
    (hd : 0 < b.metrics.totalRequests) :
    (PrintReport b).rate = F64.fin 0 ∧
    (PrintReport b).recommendations = true ∧
    b.metrics.statusCodes.len = 1 ∧
    (PrintReport b).hintStatuses = false ∧
    (PrintReport b).hintConnectivity = false := by
  obtain ⟨h1, h2, h3⟩ := Run_loop_single_status c results hall Metrics.fresh
  have hkeys : b.metrics.statusCodes.keys = {c} := by
    rw [hs, h1, if_neg hne]
    simp [Metrics.fresh, Finmap.keys_empty]
  have hget : b.metrics.statusCodes.get 200 = 0 := by
    rw [hs, h2 200 (fun h => hc h.symm)]
    simp [Metrics.fresh, CountMap.get]
  have herr : b.metrics.errors = 0 := by
    rw [he, h3]
    rfl
  have hlen : b.metrics.statusCodes.len = 1 := by
    simp [CountMap.len, hkeys]
  have hrate : successRate b.metrics = F64.fin 0 := by
    rw [successRate_eq, if_neg (ne_of_gt hd), hget]
    simp
  have hlt : F64.lt (F64.fin 0) (F64.ofInt 95) = true := by
    simp [F64.lt, F64.ofInt]
  refine ⟨hrate, ?_, hlen, ?_, ?_⟩
  · show F64.lt (successRate b.metrics) (F64.ofInt 95) = true
    rw [hrate, hlt]
  · show (F64.lt (successRate b.metrics) (F64.ofInt 95)
      && decide (b.metrics.statusCodes.len > 1)) = false
    rw [hlen]
    simp
  · show (F64.lt (successRate b.metrics) (F64.ofInt 95)
      && decide (b.metrics.errors > 0)) = false
    rw [herr]
    simp

theorem PrintReport_single_status_run_witness :
    (PrintReport scenarioD_done).rate = F64.fin 0 ∧
    (PrintReport scenarioD_done).recommendations = true ∧
    scenarioD_done.metrics.statusCodes.len = 1 ∧
    (PrintReport scenarioD_done).hintStatuses = false ∧
    (PrintReport scenarioD_done).hintConnectivity = false :=
  PrintReport_single_status_run scenarioD_done 500 scenarioD_results
    (by decide) (by decide) (by decide) (by decide) (by decide) (by decide)

/-- C10 fails on the code: after the run of ten requests all answered 500
(`statusCodes = {500: 10}`, no error, rate 0) the heading of the
recommendations is printed but the hint on the non-200 statuses is not. -/
theorem PrintReport_hint_scenarioD :
    (exec scenarioD_bench (Run_init scenarioD_bench) scenarioD_schedule).map
        (fun s => s.metrics) = some scenarioD_done.metrics ∧
    scenarioD_done.metrics.statusCodes.get 500 = 10 ∧
    scenarioD_done.metrics.statusCodes.len = 1 ∧
    scenarioD_done.metrics.errors = 0 ∧
    (PrintReport scenarioD_done).recommendations = true ∧
    (PrintReport scenarioD_done).hintStatuses = false :=
  ⟨by decide, by decide, by decide, by decide, scenarioD_report.2.1, scenarioD_report.2.2.2⟩

/-! ## The interleaving machine: steps and invariants -/

theorem countP_set_of_get {α : Type} (p : α → Bool) :
    ∀ (l : List α) (i : Nat) (x y : α), l[i]? = some y →
      (l.set i x).countP p + (if p y then 1 else 0) = l.countP p + (if p x then 1 else 0) := by
  intro l
  induction l with
  | nil => intro i x y h; simp at h
  | cons a t ih =>
    intro i x y h
    cases i with
    | zero =>
      simp only [List.getElem?_cons_zero, Option.some.injEq] at h
      subst h
      simp only [List.set_cons_zero, List.countP_cons]
      omega
    | succ j =>
      simp only [List.getElem?_cons_succ] at h
      have := ih j x y h
      simp only [List.set_cons_succ, List.countP_cons]
      omega

theorem mem_of_get {α : Type} : ∀ (l : List α) (i : Nat) (y : α), l[i]? = some y → y ∈ l := by
  intro l i y h
  obtain ⟨hi, rfl⟩ := List.getElem?_eq_some.mp h
  exact List.getElem_mem hi

/-- The seven ways a step can be taken. -/
theorem step_cases (b : Benchmark) (s s1 : RunState) (a : Action) (h : step b s a = some s1) :
    (∃ i, s.workers[i]? = some PC.loopHead ∧
        (s.cancelled = true ∨ b.requests ≤ s.metrics.totalRequests) ∧
        s1 = { s with workers := s.workers.set i PC.returned }) ∨
    (∃ i, s.workers[i]? = some PC.loopHead ∧ s.cancelled = false ∧
        s.metrics.totalRequests < b.requests ∧
        s1 = { s with workers := s.workers.set i PC.passed }) ∨
    (∃ i r, s.workers[i]? = some PC.passed ∧
        s1 = { s with metrics := { s.metrics with totalRequests := s.metrics.totalRequests + 1 }
                      workers := s.workers.set i (PC.sending r) }) ∨
    (∃ i r, s.workers[i]? = some (PC.sending r) ∧ s.results.closed = false ∧
        s1 = { s with results := { s.results with buf := s.results.buf ++ [r] }
                      workers := s.workers.set i PC.loopHead }) ∨
    ((∀ pc ∈ s.workers, pc = PC.returned) ∧
        s1 = { s with results := { s.results with closed := true } }) ∨
    (∃ r rest, s.results.buf = r :: rest ∧
        s1 = { s with metrics := Run_loopBody s.metrics r
                      results := { s.results with buf := rest } }) ∨
    (∃ e, s.results.closed = true ∧ s.results.buf = [] ∧
        s1 = { s with metrics := { s.metrics with totalTime := e }, cancelled := true }) := by
  cases a with
  | check i =>
    simp only [step] at h
    split at h
    · rename_i hw
      split_ifs at h with hc hq
      · exact Or.inl ⟨i, hw, Or.inl hc, (Option.some.inj h).symm⟩
      · exact Or.inl ⟨i, hw, Or.inr hq, (Option.some.inj h).symm⟩
      · exact Or.inr (Or.inl ⟨i, hw, by simpa using hc, not_le.mp hq, (Option.some.inj h).symm⟩)
    · exact absurd h (by simp)
  | dispatch i d resp =>
    simp only [step] at h
    split at h
    · rename_i hw
      simp only [Option.some.injEq] at h
      exact Or.inr (Or.inr (Or.inl ⟨i, _, hw, h.symm⟩))
    · exact absurd h (by simp)
  | send i =>
    simp only [step] at h
    split at h
    · rename_i r hw
      split_ifs at h with hcl hcap
      exact Or.inr (Or.inr (Or.inr (Or.inl
        ⟨i, r, hw, by simpa using hcl, (Option.some.inj h).symm⟩)))
    · exact absurd h (by simp)
  | close =>
    simp only [step] at h
    split at h
    · rename_i hg
      simp only [Option.some.injEq] at h
      simp only [Bool.and_eq_true, List.all_eq_true, decide_eq_true_eq] at hg
      exact Or.inr (Or.inr (Or.inr (Or.inr (Or.inl ⟨hg.1, h.symm⟩))))
    · exact absurd h (by simp)
  | receive =>
    simp only [step] at h
    split at h
    · rename_i r rest hb
      simp only [Option.some.injEq] at h
      exact Or.inr (Or.inr (Or.inr (Or.inr (Or.inr (Or.inl ⟨r, rest, hb, h.symm⟩)))))
    · exact absurd h (by simp)
  | finish e =>
    simp only [step] at h
    split at h
    · rename_i hg
      simp only [Option.some.injEq] at h
      simp only [Bool.and_eq_true, List.isEmpty_iff, Bool.not_eq_true'] at hg
      exact Or.inr (Or.inr (Or.inr (Or.inr (Or.inr (Or.inr ⟨e, hg.1.1, hg.1.2, h.symm⟩)))))
    · exact absurd h (by simp)

/-- A property kept by every step holds after every schedule. -/
theorem exec_induction (b : Benchmark) (P : RunState → Prop)
    (hstep : ∀ s a s1, P s → step b s a = some s1 → P s1) :
    ∀ (schedule : List Action) (s0 s : RunState), P s0 → exec b s0 schedule = some s → P s := by
  intro schedule
  induction schedule with
  | nil =>
    intro s0 s h0 h
    simp only [exec, Option.some.injEq] at h
    exact h ▸ h0
  | cons a rest ih =>
    intro s0 s h0 h
    simp only [exec] at h
    cases hs : step b s0 a with
    | none => simp [hs] at h
    | some s1 =>
      simp only [hs, Option.some_bind] at h
      exact ih s1 s (hstep s0 a s1 h0 hs) h

theorem QuotaInv_init (b : Benchmark) (hr : 0 < b.requests) (ht : 0 < b.threads)
    (h0 : b.metrics.totalRequests = 0) : QuotaInv b (Run_init b) := by
  have hnp : (List.replicate b.threads.toNat PC.loopHead).countP PC.isPassed = 0 := by
    rw [List.countP_eq_zero]
    intro a ha
    rw [List.eq_of_mem_replicate ha]
    simp [PC.isPassed]
  refine ⟨?_, ?_⟩
  · simp only [Run_init, List.length_replicate]
    omega
  · simp only [Run_init, hnp, h0]
    push_cast
    omega

theorem QuotaInv_step (b : Benchmark) (s s1 : RunState) (a : Action)
    (hinv : QuotaInv b s) (h : step b s a = some s1) : QuotaInv b s1 := by
  obtain ⟨hlen, hq⟩ := hinv
  rcases step_cases b s s1 a h with
    ⟨i, hw, _, rfl⟩ | ⟨i, hw, _, hlt, rfl⟩ | ⟨i, r, hw, rfl⟩ | ⟨i, r, hw, _, rfl⟩ |
    ⟨_, rfl⟩ | ⟨r, rest, _, rfl⟩ | ⟨e, _, _, rfl⟩
  · have hc := countP_set_of_get PC.isPassed s.workers i PC.returned PC.loopHead hw
    simp only [PC.isPassed] at hc
    refine ⟨by simpa using hlen, ?_⟩
    simp only
    simp only [Bool.false_eq_true, if_false, add_zero] at hc
    rw [hc]
    exact hq
  · have hle : (s.workers.set i PC.passed).countP PC.isPassed
        ≤ (s.workers.set i PC.passed).length := List.countP_le_length _
    rw [List.length_set] at hle
    refine ⟨by simpa using hlen, ?_⟩
    simp only
    have hle1 : ((s.workers.set i PC.passed).countP PC.isPassed : Int) ≤ b.threads := by
      rw [← hlen]
      exact_mod_cast hle
    omega
  · have hc := countP_set_of_get PC.isPassed s.workers i (PC.sending r) PC.passed hw
    simp only [PC.isPassed, if_true, Bool.false_eq_true, if_false, add_zero] at hc
    refine ⟨by simpa using hlen, ?_⟩
    simp only
    have hc1 : ((s.workers.set i (PC.sending r)).countP PC.isPassed : Int) + 1
        = (s.workers.countP PC.isPassed : Int) := by exact_mod_cast hc
    omega
  · have hc := countP_set_of_get PC.isPassed s.workers i PC.loopHead (PC.sending r) hw
    simp only [PC.isPassed, Bool.false_eq_true, if_false, add_zero] at hc
    refine ⟨by simpa using hlen, ?_⟩
    simp only
    rw [hc]
    exact hq
  · exact ⟨hlen, hq⟩
  · refine ⟨hlen, ?_⟩
    simp only [Run_loopBody_totalRequests]
    exact hq
  · exact ⟨hlen, hq⟩

/-! ## Bounded overshoot -/

/-- C3: with the quota check and the increment as two separate atomic steps,
in every state a schedule of `Run` reaches, for a Benchmark with `requests > 0`,
`threads > 0` and a counter starting at zero, `metrics.totalRequests` is at most
`requests + threads - 1`; with a single worker it is at most `requests`. -/
theorem Run_dispatch_overshoot_bounded (b : Benchmark) (s : RunState)
    (hr : 0 < b.requests) (ht : 0 < b.threads) (h0 : b.metrics.totalRequests = 0)
    (hs : Reachable b s) :
    s.metrics.totalRequests ≤ b.requests + b.threads - 1 ∧
    (b.threads = 1 → s.metrics.totalRequests ≤ b.requests) := by
  obtain ⟨schedule, hs⟩ := hs
  have hinv : QuotaInv b s :=
    exec_induction b (QuotaInv b) (fun s a s1 => QuotaInv_step b s s1 a) schedule
      (Run_init b) s (QuotaInv_init b hr ht h0) hs
  obtain ⟨_, hq⟩ := hinv
  have hnn : (0 : Int) ≤ (s.workers.countP PC.isPassed : Int) := Int.ofNat_nonneg _
  constructor
  · omega
  · intro h1
    omega

theorem CountMap.get_le_total {K : Type} [DecidableEq K] (m : CountMap K)
    (h : ∀ k, 0 ≤ m.get k) (k : K) : m.get k ≤ m.total := by
  unfold CountMap.total
  by_cases hk : k ∈ m.keys
  · exact Finset.single_le_sum (fun i _ => h i) hk
  · rw [CountMap.get_of_not_mem m k hk]
    exact Finset.sum_nonneg (fun i _ => h i)

theorem Run_loopBody_codes_nonneg (m : Metrics) (r : Result)
    (h : ∀ k, 0 ≤ m.statusCodes.get k) : ∀ k, 0 ≤ (Run_loopBody m r).statusCodes.get k := by
  intro k
  cases hr : r.Error with
  | none =>
    rw [Run_loopBody_status m r hr]
    simp only [CountMap.get_incr]
    split_ifs
    · have := h r.StatusCode
      omega
    · exact h k
  | some msg =>
    rw [Run_loopBody_error m r msg hr]
    exact h k

theorem Run_loopBody_errors_nonneg (m : Metrics) (r : Result) (h : 0 ≤ m.errors) :
    0 ≤ (Run_loopBody m r).errors := by
  cases hr : r.Error with
  | none =>
    rw [Run_loopBody_status m r hr]
    exact h
  | some msg =>
    rw [Run_loopBody_error m r msg hr]
    simp only
    omega

theorem NewBenchmark_ok (chanLimit : Int) (url : String) (requests threads : Int)
    (b : Benchmark) (hb : NewBenchmark chanLimit url requests threads = .ok b) :
    0 < b.requests ∧ 0 < b.threads ∧ b.threads ≤ b.requests ∧ b.metrics = Metrics.fresh ∧
      b.results = { cap := b.requests, buf := [], closed := false } := by
  unfold NewBenchmark at hb
  simp only at hb
  split_ifs at hb with h1 h2 h3 h4 h5
  · injection hb with hb
    subst hb
    simp only
    exact ⟨by omega, by omega, le_refl _, trivial, trivial⟩
  · injection hb with hb
    subst hb
    simp only
    exact ⟨by omega, by omega, by omega, trivial, trivial⟩

theorem AcctInv_init (b : Benchmark) (ht : 0 < b.threads) (hm : b.metrics = Metrics.fresh)
    (hres : b.results = { cap := b.requests, buf := [], closed := false }) :
    AcctInv b (Run_init b) := by
  have hns : (List.replicate b.threads.toNat PC.loopHead).countP PC.isSending = 0 := by
    rw [List.countP_eq_zero]
    intro a ha
    rw [List.eq_of_mem_replicate ha]
    simp [PC.isSending]
  refine ⟨?_, ?_, ?_, ?_, ?_, ?_, ?_⟩
  · simp [Run_init, hm, hres, hns, Metrics.fresh, CountMap.total_empty]
  · intro k
    simp [Run_init, hm, Metrics.fresh, CountMap.get]
  · simp [Run_init, hm, Metrics.fresh]
  · intro pc hpc hret
    simp only [Run_init] at hpc
    rw [List.eq_of_mem_replicate hpc] at hret
    exact absurd hret (by simp)
  · intro hcl
    simp [Run_init, hres] at hcl
  · intro hc
    simp [Run_init] at hc
  · intro hnil
    have hlen : (Run_init b).workers.length = b.threads.toNat := by
      simp [Run_init]
    rw [hnil] at hlen
    simp only [List.length_nil] at hlen
    omega

theorem AcctInv_step (b : Benchmark) (s s1 : RunState) (a : Action)
    (hinv : AcctInv b s) (h : step b s a = some s1) : AcctInv b s1 := by
  obtain ⟨htal, hcod, herr, hret, hclo, hcan, hne⟩ := hinv
  have hne_set : ∀ (i : Nat) (x : PC), s.workers.set i x ≠ [] := by
    intro i x hnil
    have := congrArg List.length hnil
    rw [List.length_set] at this
    exact hne (List.length_eq_zero.mp this)
  rcases step_cases b s s1 a h with
    ⟨i, hw, hguard, rfl⟩ | ⟨i, hw, _, hlt, rfl⟩ | ⟨i, r, hw, rfl⟩ | ⟨i, r, hw, hopen, rfl⟩ |
    ⟨hall, rfl⟩ | ⟨r, rest, hbuf, rfl⟩ | ⟨e, hcl, hbuf, rfl⟩
  · have hc := countP_set_of_get PC.isSending s.workers i PC.returned PC.loopHead hw
    simp only [PC.isSending, Bool.false_eq_true, if_false, add_zero] at hc
    have hquota : b.requests ≤ s.metrics.totalRequests := by
      rcases hguard with hcanc | hq
      · have := hclo (hcan hcanc) PC.loopHead (mem_of_get _ _ _ hw)
        exact absurd this (by simp)
      · exact hq
    refine ⟨?_, hcod, herr, ?_, ?_, hcan, hne_set i _⟩
    · simp only
      rw [hc]
      exact htal
    · intro pc hpc hr
      rcases List.mem_or_eq_of_mem_set hpc with hold | _
      · exact hret pc hold hr
      · exact hquota
    · intro hcl pc hpc
      rcases List.mem_or_eq_of_mem_set hpc with hold | hnew
      · exact hclo hcl pc hold
      · exact hnew
  · have hc := countP_set_of_get PC.isSending s.workers i PC.passed PC.loopHead hw
    simp only [PC.isSending, Bool.false_eq_true, if_false, add_zero] at hc
    refine ⟨?_, hcod, herr, ?_, ?_, hcan, hne_set i _⟩
    · simp only
      rw [hc]
      exact htal
    · intro pc hpc hr
      rcases List.mem_or_eq_of_mem_set hpc with hold | hnew
      · exact hret pc hold hr
      · rw [hnew] at hr
        exact absurd hr (by simp)
    · intro hcl
      have := hclo hcl PC.loopHead (mem_of_get _ _ _ hw)
      exact absurd this (by simp)
  · have hc := countP_set_of_get PC.isSending s.workers i (PC.sending r) PC.passed hw
    simp only [PC.isSending, if_true, Bool.false_eq_true, if_false, add_zero] at hc
    have hc1 : ((s.workers.set i (PC.sending r)).countP PC.isSending : Int)
        = (s.workers.countP PC.isSending : Int) + 1 := by exact_mod_cast hc
    refine ⟨?_, hcod, herr, ?_, ?_, hcan, hne_set i _⟩
    · simp only
      rw [hc1]
      omega
    · intro pc hpc hr
      rcases List.mem_or_eq_of_mem_set hpc with hold | hnew
      · have := hret pc hold hr
        simp only
        omega
      · rw [hnew] at hr
        exact absurd hr (by simp)
    · intro hcl
      have := hclo hcl PC.passed (mem_of_get _ _ _ hw)
      exact absurd this (by simp)
  · have hc := countP_set_of_get PC.isSending s.workers i PC.loopHead (PC.sending r) hw
    simp only [PC.isSending, if_true, Bool.false_eq_true, if_false, add_zero] at hc
    have hc1 : ((s.workers.set i PC.loopHead).countP PC.isSending : Int) + 1
        = (s.workers.countP PC.isSending : Int) := by exact_mod_cast hc
    refine ⟨?_, hcod, herr, ?_, ?_, hcan, hne_set i _⟩
    · simp only [List.length_append, List.length_singleton]
      push_cast
      omega
    · intro pc hpc hr
      rcases List.mem_or_eq_of_mem_set hpc with hold | hnew
      · exact hret pc hold hr
      · rw [hnew] at hr
        exact absurd hr (by simp)
    · intro hcl
      simp only at hcl
      rw [hopen] at hcl
      exact absurd hcl (by simp)
  · exact ⟨htal, hcod, herr, hret, fun _ => hall, fun hc => rfl, hne⟩
  · refine ⟨?_, Run_loopBody_codes_nonneg _ r hcod, Run_loopBody_errors_nonneg _ r herr,
      ?_, hclo, hcan, hne⟩
    · have ht := Run_loopBody_tally s.metrics r
      simp only [Run_loopBody_totalRequests]
      rw [hbuf, List.length_cons] at htal
      push_cast at htal
      omega
    · intro pc hpc hr
      simp only [Run_loopBody_totalRequests]
      exact hret pc hpc hr
  · exact ⟨htal, hcod, herr, hret, hclo, fun _ => hcl, hne⟩

theorem AcctInv_completed (b : Benchmark) (s : RunState) (hr : 0 < b.requests)
    (hinv : AcctInv b s) (hc : s.completed = true) :
    0 ≤ s.metrics.statusCodes.get 200 ∧
    s.metrics.statusCodes.get 200 ≤ s.metrics.totalRequests ∧
    0 < s.metrics.totalRequests := by
  obtain ⟨htal, hcod, herr, hret, hclo, hcan, hne⟩ := hinv
  have hle := CountMap.get_le_total s.metrics.statusCodes hcod 200
  have hb : (0 : Int) ≤ (s.results.buf.length : Int) := Int.ofNat_nonneg _
  have hsn : (0 : Int) ≤ (s.workers.countP PC.isSending : Int) := Int.ofNat_nonneg _
  refine ⟨hcod 200, by omega, ?_⟩
  obtain ⟨pc, hpc⟩ := List.exists_mem_of_ne_nil s.workers hne
  have hq := hret pc hpc (hclo (hcan hc) pc hpc)
  omega

/-! ## The success rate after a completed run -/

/-- C9: for a Benchmark built by `NewBenchmark`, in every state in which `Run`
has returned, `0 <= statusCodes[200] <= metrics.totalRequests` and
`metrics.totalRequests > 0`, and the success rate computed by `PrintReport` is a
finite value between 0 and 100. -/
theorem Run_completed_rate_bounds (chanLimit : Int) (url : String) (requests threads : Int)
    (b : Benchmark) (s : RunState)
    (hb : NewBenchmark chanLimit url requests threads = .ok b)
    (hs : Reachable b s)
    (hc : s.completed = true) :
    0 ≤ s.metrics.statusCodes.get 200 ∧
    s.metrics.statusCodes.get 200 ≤ s.metrics.totalRequests ∧
    0 < s.metrics.totalRequests ∧
    ∃ q : ℚ, (PrintReport (b.afterRun s)).rate = F64.fin q ∧ 0 ≤ q ∧ q ≤ 100 := by
  obtain ⟨hr, ht, _, hm, hres⟩ := NewBenchmark_ok chanLimit url requests threads b hb
  obtain ⟨schedule, hs⟩ := hs
  have hinv : AcctInv b s :=
    exec_induction b (AcctInv b) (fun s a s1 => AcctInv_step b s s1 a) schedule
      (Run_init b) s (AcctInv_init b ht hm hres) hs
  obtain ⟨h0, hle, hpos⟩ := AcctInv_completed b s hr hinv hc
  refine ⟨h0, hle, hpos,
    (s.metrics.statusCodes.get 200 : ℚ) / (s.metrics.totalRequests : ℚ) * 100, ?_, ?_, ?_⟩
  · show successRate s.metrics = _
    rw [successRate_eq, if_neg (ne_of_gt hpos)]
  · have h0q : (0 : ℚ) ≤ (s.metrics.statusCodes.get 200 : ℚ) := by exact_mod_cast h0
    have hposq : (0 : ℚ) < (s.metrics.totalRequests : ℚ) := by exact_mod_cast hpos
    exact mul_nonneg (div_nonneg h0q (le_of_lt hposq)) (by norm_num)
  · have hleq : (s.metrics.statusCodes.get 200 : ℚ) ≤ (s.metrics.totalRequests : ℚ) := by
      exact_mod_cast hle
    have hposq : (0 : ℚ) < (s.metrics.totalRequests : ℚ) := by exact_mod_cast hpos
    have h1 : (s.metrics.statusCodes.get 200 : ℚ) / (s.metrics.totalRequests : ℚ) ≤ 1 :=
      (div_le_one hposq).mpr hleq
    linarith

theorem Run_completed_rate_bounds_witness :
    0 ≤ mixed_final.metrics.statusCodes.get 200 ∧
    mixed_final.metrics.statusCodes.get 200 ≤ mixed_final.metrics.totalRequests ∧
    0 < mixed_final.metrics.totalRequests ∧
    ∃ q : ℚ, (PrintReport (mixed_bench.afterRun mixed_final)).rate = F64.fin q ∧ 0 ≤ q ∧ q ≤ 100 :=
  Run_completed_rate_bounds chanLimit64 "http://localhost:8080" 4 2 mixed_bench mixed_final
    (by decide) ⟨mixed_schedule, by decide⟩ (by decide)

/-! ## The overshoot of the dispatch quota -/

theorem Run_dispatch_overshoot_bounded_witness :
    overshoot_final.metrics.totalRequests ≤ overshoot_bench.requests + overshoot_bench.threads - 1 ∧
    (overshoot_bench.threads = 1 →
      overshoot_final.metrics.totalRequests ≤ overshoot_bench.requests) :=
  Run_dispatch_overshoot_bounded overshoot_bench overshoot_final
    (by decide) (by decide) (by decide) ⟨overshoot_schedule, by decide⟩

/-- C2 on the code: for the valid configuration of two requests and two
threads there is a schedule of `Run`, run to completion, after which
`metrics.totalRequests` is 3 and the status counts plus `errors` sum to 3, not
to the 2 requests configured. -/
theorem Run_overshoot_two_workers :
    NewBenchmark chanLimit64 "http://localhost:8080" 2 2 = .ok overshoot_bench ∧
    exec overshoot_bench (Run_init overshoot_bench) overshoot_schedule = some overshoot_final ∧
    overshoot_final.completed = true ∧
    overshoot_bench.requests = 2 ∧
    overshoot_final.metrics.totalRequests = 3 ∧
    overshoot_final.metrics.statusCodes.total + overshoot_final.metrics.errors = 3 := by
  decide

end StressTest
